import Mathlib

/-!
Shallow embedding of `src/index.js` (TessNode): an Express server exposing
`/api/get-text` and `/api/get-bboxes`, which validate a base64 image, stage it
to disk, invoke an external OCR executable, parse its output, clean up staged
files and respond.

JavaScript strings are modelled as Lean `String`s manipulated through their
character lists; JavaScript numbers are modelled as `JSNum` (an exact rational
or NaN — decimal literals are modelled exactly as rationals, abstracting IEEE
rounding; every numeric value appearing in the claims is exactly
representable).  The filesystem is a set of paths (`List String`); the
external effects of a request handler (file write, recognizer execution, file
read) are oracles supplied as input.
-/

/-- JavaScript whitespace (the characters relevant to `String.prototype.trim`,
`parseFloat`/`parseInt` leading-whitespace skipping and blank-line detection):
space, tab, line feed, carriage return, vertical tab, form feed, NBSP. -/
def jsIsWS (c : Char) : Bool :=
  c = ' ' || c = '\t' || c = '\n' || c = '\r' ||
  c = Char.ofNat 11 || c = Char.ofNat 12 || c = Char.ofNat 160

/-- JavaScript `String.prototype.trim`: strip leading and trailing whitespace. -/
def jsTrim (s : String) : String :=
  String.mk (((s.data.dropWhile jsIsWS).reverse.dropWhile jsIsWS).reverse)

/-- Split a character list on a separator character (auxiliary accumulator
form).  Models JavaScript `String.prototype.split` with a single-character
separator: `"".split(c)` is `[""]`, separators at the ends yield empty
fields. -/
def splitOnCharAux (sep : Char) : List Char → List Char → List (List Char)
  | [], acc => [acc.reverse]
  | x :: xs, acc =>
    if x = sep then acc.reverse :: splitOnCharAux sep xs []
    else splitOnCharAux sep xs (x :: acc)

/-- Split a character list on a separator character. -/
def splitOnChar (sep : Char) (cs : List Char) : List (List Char) :=
  splitOnCharAux sep cs []

/-- JavaScript `s.split(sep)` for a one-character separator. -/
def jsSplit (sep : Char) (s : String) : List String :=
  (splitOnChar sep s.data).map String.mk

/-- JavaScript `s.startsWith(pre)`. -/
def jsStartsWith (s pre : String) : Bool :=
  pre.data.isPrefixOf s.data

/-- JavaScript `String.prototype.toLowerCase`, restricted to ASCII (the only
characters it is ever applied to here are hex digits). -/
def jsToLowerChar (c : Char) : Char :=
  if 'A' ≤ c && c ≤ 'Z' then Char.ofNat (c.toNat + 32) else c

/-- JavaScript `s.toLowerCase()` (ASCII). -/
def jsToLower (s : String) : String :=
  String.mk (s.data.map jsToLowerChar)

/-- A JavaScript number: an exact rational or NaN.  (The program never
produces infinities on the paths modelled here.) -/
inductive JSNum where
  | num (q : ℚ)
  | nan
  deriving DecidableEq, Repr

/-- JavaScript `+` on numbers: NaN is absorbing. -/
def jsAdd : JSNum → JSNum → JSNum
  | JSNum.num a, JSNum.num b => JSNum.num (a + b)
  | _, _ => JSNum.nan

/-- Decimal digit value of a character, if it is one. -/
def digitVal (c : Char) : Option Nat :=
  if '0' ≤ c && c ≤ '9' then some (c.toNat - 48) else none

/-- Take the longest prefix of decimal digits, returning their values and the
rest of the input. -/
def takeDigits : List Char → List Nat × List Char
  | [] => ([], [])
  | c :: cs =>
    match digitVal c with
    | some d => (d :: (takeDigits cs).1, (takeDigits cs).2)
    | none => ([], c :: cs)

/-- Digit list (most significant first) to the natural number it denotes. -/
def digitsToNat (ds : List Nat) : Nat :=
  ds.foldl (fun a d => a * 10 + d) 0

/-- Hexadecimal digit value of a character, if it is one. -/
def hexDigitVal (c : Char) : Option Nat :=
  if '0' ≤ c && c ≤ '9' then some (c.toNat - 48)
  else if 'a' ≤ c && c ≤ 'f' then some (c.toNat - 97 + 10)
  else if 'A' ≤ c && c ≤ 'F' then some (c.toNat - 65 + 10)
  else none

/-- Take the longest prefix of hexadecimal digits. -/
def takeHexDigits : List Char → List Nat × List Char
  | [] => ([], [])
  | c :: cs =>
    match hexDigitVal c with
    | some d => (d :: (takeHexDigits cs).1, (takeHexDigits cs).2)
    | none => ([], c :: cs)

/-- Hex digit list (most significant first) to the natural number it denotes. -/
def hexDigitsToNat (ds : List Nat) : Nat :=
  ds.foldl (fun a d => a * 16 + d) 0

/-- Sign prefix: returns the sign (as a rational, `1` or `-1`) and the rest. -/
def takeSign : List Char → ℚ × List Char
  | '-' :: cs => (-1, cs)
  | '+' :: cs => (1, cs)
  | cs => (1, cs)

/-- JavaScript `parseFloat`: skip leading whitespace, read an optional sign,
integer digits, an optional fraction and an optional exponent; the longest
valid numeric prefix is converted, anything after it is ignored; if no digits
occur before the exponent the result is NaN.  (`"Infinity"` inputs, which
never arise here, are not modelled.) -/
def jsParseFloat (s : String) : JSNum :=
  let cs := s.data.dropWhile jsIsWS
  let (sgn, cs1) := takeSign cs
  let (ip, cs2) := takeDigits cs1
  let (fp, cs3) :=
    match cs2 with
    | '.' :: r => takeDigits r
    | _ => ([], cs2)
  if ip.isEmpty && fp.isEmpty then JSNum.nan
  else
    let (esgn, ed) :=
      match cs3 with
      | 'e' :: r => let (s2, r2) := takeSign r; (s2, (takeDigits r2).1)
      | 'E' :: r => let (s2, r2) := takeSign r; (s2, (takeDigits r2).1)
      | _ => (1, [])
    let mant : ℚ := sgn * ((digitsToNat ip : ℚ) + (digitsToNat fp : ℚ) / (10 : ℚ) ^ fp.length)
    let scaled : ℚ :=
      if ed.isEmpty then mant
      else if esgn = -1 then mant / (10 : ℚ) ^ digitsToNat ed
      else mant * (10 : ℚ) ^ digitsToNat ed
    JSNum.num scaled

/-- JavaScript `parseInt` with no radix argument: skip leading whitespace,
read an optional sign, then either a `0x`/`0X`-prefixed hexadecimal literal or
a run of decimal digits; trailing junk is ignored; no digits means NaN. -/
def jsParseInt (s : String) : JSNum :=
  let cs := s.data.dropWhile jsIsWS
  let (sgn, cs1) := takeSign cs
  match cs1 with
  | '0' :: 'x' :: r =>
    let ds := (takeHexDigits r).1
    if ds.isEmpty then JSNum.nan else JSNum.num (sgn * (hexDigitsToNat ds : ℚ))
  | '0' :: 'X' :: r =>
    let ds := (takeHexDigits r).1
    if ds.isEmpty then JSNum.nan else JSNum.num (sgn * (hexDigitsToNat ds : ℚ))
  | _ =>
    let ds := (takeDigits cs1).1
    if ds.isEmpty then JSNum.nan else JSNum.num (sgn * (digitsToNat ds : ℚ))

/-- 6-bit value of a base64 (or base64url) alphabet character, if it is one.
The `% 64` is a no-op for every character passing its range guard; it only
makes the 6-bit bound syntactic. -/
def base64CharVal (c : Char) : Option Nat :=
  if 'A' ≤ c && c ≤ 'Z' then some ((c.toNat - 65) % 64)
  else if 'a' ≤ c && c ≤ 'z' then some ((c.toNat - 97 + 26) % 64)
  else if '0' ≤ c && c ≤ '9' then some ((c.toNat - 48 + 52) % 64)
  else if c = '+' || c = '-' then some 62
  else if c = '/' || c = '_' then some 63
  else none

/-- Pack 6-bit groups into bytes: each full group of four sextets yields three
bytes; a trailing group of two or three sextets yields one or two bytes; a
lone trailing sextet yields nothing. -/
def sextetsToBytes : List Nat → List Nat
  | a :: b :: c :: d :: rest =>
    (a * 4 + b / 16) :: ((b % 16) * 16 + c / 4) :: ((c % 4) * 64 + d) ::
      sextetsToBytes rest
  | [a, b] => [a * 4 + b / 16]
  | [a, b, c] => [a * 4 + b / 16, (b % 16) * 16 + c / 4]
  | _ => []

/-- Node's forgiving `Buffer.from(s, 'base64')`: it never throws — characters
outside the base64/base64url alphabet are ignored, `=` terminates the data,
and the surviving sextets are packed into bytes. -/
def nodeBase64Decode (s : String) : List Nat :=
  sextetsToBytes ((s.data.takeWhile (fun c => c ≠ '=')).filterMap base64CharVal)

/-- One byte rendered as two lowercase hex characters, as a byte of
`buffer.toString('hex')` is. -/
def hexByte (b : Nat) : List Char :=
  [Nat.digitChar (b / 16 % 16), Nat.digitChar (b % 16)]

/-- `buffer.toString('hex', 0, 4)`: the first (at most) four bytes rendered
as lowercase hex. -/
def bufferToHex4 (bytes : List Nat) : String :=
  String.mk (((bytes.take 4).map hexByte).flatten)

/-- `isValidBase64Image` from `src/index.js`: decode the base64 string (Node's
decoder is total, so the `try`/`catch` around it never fires), render the
first four bytes as lowercase hex, and accept iff that hex string starts with
one of the JPEG/PNG/GIF magic prefixes. -/
def isValidBase64Image (base64String : String) : Bool :=
  let buffer := nodeBase64Decode base64String
  let firstBytes := jsToLower (bufferToHex4 buffer)
  ["ffd8", "8950", "4749"].any (fun sig => jsStartsWith firstBytes sig)

/-- `VALID_BBOX_TYPES` from `src/index.js`. -/
def validBboxTypes : List String :=
  ["word", "line", "paragraph", "block", "page"]

/-- Node `path.join(a, b)` (POSIX separator). -/
def pathJoin (a b : String) : String := a ++ "/" ++ b

/-- The staged image path for a `Date.now()` reading `t`:
`path.join('uploads', 'image_<t>.png')`. -/
def imagePathOf (t : Nat) : String :=
  pathJoin "uploads" ("image_" ++ Nat.repr t ++ ".png")

/-- The staged output basename for a `Date.now()` reading `t`:
`path.join('output', 'image_<t>')`. -/
def outputBaseOf (t : Nat) : String :=
  pathJoin "output" ("image_" ++ Nat.repr t)

/-- The staged file pair computed by a handler.  The source calls `Date.now()`
twice — once for the image path and once for the output basename — so the
pair is a function of the two successive clock readings `t1 ≤ t2`. -/
def stagePair (t1 t2 : Nat) : String × String :=
  (imagePathOf t1, outputBaseOf t2)

/-- The filesystem is modelled as the set of existing file paths. -/
abbrev FileSys := List String

/-- Create a file: add its path to the filesystem if absent. -/
def fsCreate (fs : FileSys) (p : String) : FileSys :=
  if p ∈ fs then fs else p :: fs

/-- `fs.unlinkSync` guarded by `fs.existsSync`: remove the path if present. -/
def unlinkIfExists (fs : FileSys) (p : String) : FileSys :=
  if p ∈ fs then fs.filter (fun q => q ≠ p) else fs

/-- `cleanupFiles` from `src/index.js`: delete the staged image and the two
possible derived output files when they exist.  The surrounding `try`/`catch`
swallows any deletion error, so the function is total; in this filesystem
model (no permission failures or races) the guarded unlinks always succeed. -/
def cleanupFiles (imagePath outputBase : String) (fs : FileSys) : FileSys :=
  unlinkIfExists (unlinkIfExists (unlinkIfExists fs imagePath)
    (outputBase ++ ".txt")) (outputBase ++ ".tsv")

/-- A bounding-box record emitted by the TSV parser in `/api/get-bboxes`. -/
structure BBox where
  text : String
  confidence : JSNum
  x_min : JSNum
  y_min : JSNum
  x_max : JSNum
  y_max : JSNum
  deriving DecidableEq, Repr

/-- The body of the `bboxes` map callback in `src/index.js`: split the line on
tabs into the twelve positional fields and build the record.  JavaScript
destructuring leaves `text` `undefined` when there are fewer than twelve
fields, and `text.trim()` then throws a `TypeError`; that exception is
modelled as `none`. -/
def parseRow (line : String) : Option BBox :=
  let fields := jsSplit '\t' line
  if fields.length < 12 then none
  else
    let left := fields.getD 6 ""
    let top := fields.getD 7 ""
    let width := fields.getD 8 ""
    let height := fields.getD 9 ""
    let conf := fields.getD 10 ""
    let text := fields.getD 11 ""
    some
      { text := jsTrim text
        confidence := jsParseFloat conf
        x_min := jsParseInt left
        y_min := jsParseInt top
        x_max := jsAdd (jsParseInt left) (jsParseInt width)
        y_max := jsAdd (jsParseInt top) (jsParseInt height) }

/-- TSV parsing in `/api/get-bboxes`: split the file on newlines, drop the
header row, keep the lines whose trim is non-empty (truthy), and map
`parseRow` over them; a row exception propagates (`none`). -/
def parseTSV (data : String) : Option (List BBox) :=
  let lines := (jsSplit '\n' data).drop 1
  (lines.filter (fun line => jsTrim line ≠ "")).mapM parseRow

/-- Outcomes of the external effects a handler performs, supplied as input:
whether the staged-image write succeeds, whether the recognizer process exits
zero (and its stderr text when it does not), and whether the output file read
succeeds (and its content when it does). -/
structure RecognizerOracle where
  writeOk : Bool
  execOk : Bool
  execStderr : String
  readOk : Bool
  readData : String
  deriving DecidableEq, Repr

/-- Which externally visible steps a handler performed. -/
structure Trace where
  stagedWrite : Bool
  recognizerInvoked : Bool
  cleanupRan : Bool
  deriving DecidableEq, Repr

/-- The trace of a request that never reaches staging. -/
def noTrace : Trace := ⟨false, false, false⟩

/-- The JSON response a handler sends, flattened: HTTP status, the `success`
flag, and the optional `error.message` / `result.text` / `result.bboxes` /
`result.bbox_type` payload fields. -/
structure ApiResponse where
  status : Nat
  success : Bool
  message : Option String
  text : Option String
  bboxes : Option (List BBox)
  bboxType : Option String
  deriving DecidableEq, Repr

/-- An error response `{ success: false, error: { message } }`. -/
def errorResponse (status : Nat) (msg : String) : ApiResponse :=
  ⟨status, false, some msg, none, none, none⟩

/-- JavaScript truthiness test `!base64_image || !isValidBase64Image(...)`:
the field is falsy when absent or the empty string. -/
def validImageField (body : Option String) : Bool :=
  match body with
  | none => false
  | some img => !(img = "") && isValidBase64Image img

/-- Truthiness/membership test `!bbox_type || !VALID_BBOX_TYPES.has(bbox_type)`
(negated): the field must be present, truthy and a member of the set. -/
def validBboxField (bbox_type : Option String) : Bool :=
  match bbox_type with
  | none => false
  | some b => !(b = "") && validBboxTypes.contains b

/-- The `/api/get-text` handler from `src/index.js`.  `base64_image` is the
request-body field; `t1`, `t2` are the two successive `Date.now()` readings;
`o` supplies the outcomes of the write/exec/read effects; `fs` is the
filesystem before the request.  The result is the response sent (`none` would
mean an exception escaped — this handler always responds), the effect trace,
and the filesystem after the handler finishes. -/
def getTextHandler (base64_image : Option String) (t1 t2 : Nat)
    (o : RecognizerOracle) (fs : FileSys) :
    Option ApiResponse × Trace × FileSys :=
  if !(validImageField base64_image) then
    (some (errorResponse 400 "Invalid base64_image."), noTrace, fs)
  else
    let imagePath := (stagePair t1 t2).1
    let outputPath := (stagePair t1 t2).2
    if !o.writeOk then
      (some (errorResponse 500 "Error saving image."), ⟨true, false, false⟩, fs)
    else
      let fs1 := fsCreate fs imagePath
      if !o.execOk then
        (some (errorResponse 500 ("Error processing image: " ++ o.execStderr)),
          ⟨true, true, true⟩, cleanupFiles imagePath outputPath fs1)
      else
        let fs2 := fsCreate fs1 (outputPath ++ ".txt")
        if !o.readOk then
          (some (errorResponse 500 "Error reading output file."),
            ⟨true, true, true⟩, cleanupFiles imagePath outputPath fs2)
        else
          (some ⟨200, true, none, some (jsTrim o.readData), none, none⟩,
            ⟨true, true, true⟩, cleanupFiles imagePath outputPath fs2)

/-- The `/api/get-bboxes` handler from `src/index.js`.  Validation checks the
image first, then the bbox type; on success the recognizer is invoked in TSV
mode (it writes both `<outputBase>.txt` and `<outputBase>.tsv`), the `.tsv`
file is read and parsed, staged files are cleaned up and the parsed rows are
returned together with the request's `bbox_type`.  A parse exception (`none`
from `parseTSV`) escapes the callback: no response is sent and `cleanupFiles`
is never reached. -/
def getBboxesHandler (base64_image bbox_type : Option String) (t1 t2 : Nat)
    (o : RecognizerOracle) (fs : FileSys) :
    Option ApiResponse × Trace × FileSys :=
  if !(validImageField base64_image) then
    (some (errorResponse 400 "Invalid base64_image."), noTrace, fs)
  else if !(validBboxField bbox_type) then
    (some (errorResponse 400 "Invalid bbox_type."), noTrace, fs)
  else
    let imagePath := (stagePair t1 t2).1
    let outputPath := (stagePair t1 t2).2
    if !o.writeOk then
      (some (errorResponse 500 "Error saving image."), ⟨true, false, false⟩, fs)
    else
      let fs1 := fsCreate fs imagePath
      if !o.execOk then
        (some (errorResponse 500 ("Error processing image: " ++ o.execStderr)),
          ⟨true, true, true⟩, cleanupFiles imagePath outputPath fs1)
      else
        let fs2 := fsCreate (fsCreate fs1 (outputPath ++ ".txt")) (outputPath ++ ".tsv")
        if !o.readOk then
          (some (errorResponse 500 "Error reading output file."),
            ⟨true, true, true⟩, cleanupFiles imagePath outputPath fs2)
        else
          match parseTSV o.readData with
          | none => (none, ⟨true, true, false⟩, fs2)
          | some bs =>
            (some ⟨200, true, none, none, some bs, bbox_type⟩,
              ⟨true, true, true⟩, cleanupFiles imagePath outputPath fs2)

/-! ### Lemmas about splitting, joining and trimming -/

theorem splitOnCharAux_no_sep (sep : Char) :
    ∀ (l acc : List Char), sep ∉ l → splitOnCharAux sep l acc = [acc.reverse ++ l]
  | [], acc, _ => by simp [splitOnCharAux]
  | x :: xs, acc, h => by
    have hx : x ≠ sep := fun e => h (e ▸ List.mem_cons_self x xs)
    have hxs : sep ∉ xs := fun m => h (List.mem_cons_of_mem _ m)
    simp only [splitOnCharAux, if_neg hx, splitOnCharAux_no_sep sep xs (x :: acc) hxs,
      List.reverse_cons, List.append_assoc, List.cons_append, List.nil_append]

theorem splitOnCharAux_sep_append (sep : Char) :
    ∀ (a b acc : List Char), sep ∉ a →
      splitOnCharAux sep (a ++ sep :: b) acc = (acc.reverse ++ a) :: splitOnChar sep b
  | [], b, acc, _ => by simp [splitOnCharAux, splitOnChar]
  | x :: xs, b, acc, h => by
    have hx : x ≠ sep := fun e => h (e ▸ List.mem_cons_self x xs)
    have hxs : sep ∉ xs := fun m => h (List.mem_cons_of_mem _ m)
    simp only [List.cons_append, splitOnCharAux, if_neg hx, List.append_eq,
      splitOnCharAux_sep_append sep xs b (x :: acc) hxs, List.reverse_cons,
      List.append_assoc, List.nil_append]

theorem splitOnChar_no_sep {sep : Char} {l : List Char} (h : sep ∉ l) :
    splitOnChar sep l = [l] := by
  simp [splitOnChar, splitOnCharAux_no_sep sep l [] h]

theorem splitOnChar_sep_append {sep : Char} {a b : List Char} (h : sep ∉ a) :
    splitOnChar sep (a ++ sep :: b) = a :: splitOnChar sep b := by
  simp [splitOnChar, splitOnCharAux_sep_append sep a b [] h]

theorem intercalate_go_data (s : String) :
    ∀ (as : List String) (acc : String),
      (String.intercalate.go acc s as).data =
        acc.data ++ (as.map (fun a => s.data ++ a.data)).flatten
  | [], acc => by simp [String.intercalate.go]
  | a :: as, acc => by
    simp [String.intercalate.go, intercalate_go_data s as (acc ++ s ++ a),
      List.append_assoc]

theorem intercalate_data (s : String) (a : String) (as : List String) :
    (String.intercalate s (a :: as)).data =
      a.data ++ (as.map (fun x => s.data ++ x.data)).flatten := by
  simp [String.intercalate, intercalate_go_data]

theorem splitOnChar_intercalate (sep : Char) (sepStr : String)
    (hs : sepStr.data = [sep]) :
    ∀ (a : String) (as : List String), sep ∉ a.data → (∀ x ∈ as, sep ∉ x.data) →
      splitOnChar sep (String.intercalate sepStr (a :: as)).data =
        (a :: as).map String.data
  | a, [], ha, _ => by
    simpa [intercalate_data] using splitOnChar_no_sep ha
  | a, x :: xs, ha, hall => by
    have hx : sep ∉ x.data := hall x (List.mem_cons_self x xs)
    have hxs : ∀ y ∈ xs, sep ∉ y.data := fun y hy => hall y (List.mem_cons_of_mem _ hy)
    have ih := splitOnChar_intercalate sep sepStr hs x xs hx hxs
    have h1 : (String.intercalate sepStr (a :: x :: xs)).data =
        a.data ++ sep :: (String.intercalate sepStr (x :: xs)).data := by
      simp [intercalate_data, hs]
    rw [h1, splitOnChar_sep_append ha, ih]
    simp

theorem jsSplit_intercalate {sep : Char} {sepStr : String} (hs : sepStr.data = [sep])
    {fields : List String} (hne : fields ≠ [])
    (hf : ∀ f ∈ fields, sep ∉ f.data) :
    jsSplit sep (String.intercalate sepStr fields) = fields := by
  obtain ⟨a, as, rfl⟩ := List.exists_cons_of_ne_nil hne
  unfold jsSplit
  rw [splitOnChar_intercalate sep sepStr hs a as (hf a (List.mem_cons_self a as))
    (fun x hx => hf x (List.mem_cons_of_mem _ hx))]
  simp [List.map_map, Function.comp_def]

theorem jsTrim_of_all_ws {s : String} (h : ∀ c ∈ s.data, jsIsWS c = true) :
    jsTrim s = "" := by
  unfold jsTrim
  have h1 : s.data.dropWhile jsIsWS = [] := List.dropWhile_eq_nil_iff.mpr h
  simp [h1]

/-! ### Lemmas about the filesystem model and `cleanupFiles` -/

theorem mem_unlinkIfExists {fs : FileSys} {p q : String} :
    q ∈ unlinkIfExists fs p ↔ q ∈ fs ∧ q ≠ p := by
  by_cases hp : p ∈ fs
  · simp [unlinkIfExists, hp, List.mem_filter]
  · simp only [unlinkIfExists, if_neg hp]
    constructor
    · intro hq
      exact ⟨hq, fun e => hp (e ▸ hq)⟩
    · exact fun h => h.1

theorem unlinkIfExists_of_not_mem {fs : FileSys} {p : String} (h : p ∉ fs) :
    unlinkIfExists fs p = fs := by
  simp [unlinkIfExists, h]

theorem mem_cleanupFiles {imagePath outputBase : String} {fs : FileSys} {q : String} :
    q ∈ cleanupFiles imagePath outputBase fs ↔
      q ∈ fs ∧ q ≠ imagePath ∧ q ≠ outputBase ++ ".txt" ∧ q ≠ outputBase ++ ".tsv" := by
  unfold cleanupFiles
  simp only [mem_unlinkIfExists]
  tauto

theorem cleanupFiles_idem (imagePath outputBase : String) (fs : FileSys) :
    cleanupFiles imagePath outputBase (cleanupFiles imagePath outputBase fs) =
      cleanupFiles imagePath outputBase fs := by
  have h1 : imagePath ∉ cleanupFiles imagePath outputBase fs :=
    fun h => (mem_cleanupFiles.mp h).2.1 rfl
  have h2 : outputBase ++ ".txt" ∉ cleanupFiles imagePath outputBase fs :=
    fun h => (mem_cleanupFiles.mp h).2.2.1 rfl
  have h3 : outputBase ++ ".tsv" ∉ cleanupFiles imagePath outputBase fs :=
    fun h => (mem_cleanupFiles.mp h).2.2.2 rfl
  show unlinkIfExists (unlinkIfExists (unlinkIfExists
      (cleanupFiles imagePath outputBase fs) imagePath)
      (outputBase ++ ".txt")) (outputBase ++ ".tsv") = _
  rw [unlinkIfExists_of_not_mem h1, unlinkIfExists_of_not_mem h2,
    unlinkIfExists_of_not_mem h3]

/-! ### Lemmas about the TSV parser -/

theorem parseRow_fields (fields : List String) (h12 : fields.length = 12)
    (hf : ∀ f ∈ fields, '\t' ∉ f.data) :
    parseRow (String.intercalate "\t" fields) =
      some
        { text := jsTrim (fields.getD 11 "")
          confidence := jsParseFloat (fields.getD 10 "")
          x_min := jsParseInt (fields.getD 6 "")
          y_min := jsParseInt (fields.getD 7 "")
          x_max := jsAdd (jsParseInt (fields.getD 6 "")) (jsParseInt (fields.getD 8 ""))
          y_max := jsAdd (jsParseInt (fields.getD 7 "")) (jsParseInt (fields.getD 9 "")) } := by
  have hne : fields ≠ [] := by
    intro e
    rw [e] at h12
    simp at h12
  have hsplit : jsSplit '\t' (String.intercalate "\t" fields) = fields :=
    jsSplit_intercalate rfl hne hf
  unfold parseRow
  rw [hsplit]
  simp [h12]

theorem parseTSV_rows (hdr : String) (rows : List String)
    (hhdr : '\n' ∉ hdr.data) (hrows : ∀ r ∈ rows, '\n' ∉ r.data) :
    parseTSV (String.intercalate "\n" (hdr :: rows)) =
      (rows.filter (fun line => jsTrim line ≠ "")).mapM parseRow := by
  have hsplit : jsSplit '\n' (String.intercalate "\n" (hdr :: rows)) = hdr :: rows := by
    refine jsSplit_intercalate rfl (by simp) ?_
    intro f hfm
    rcases List.mem_cons.mp hfm with h | h
    · exact h ▸ hhdr
    · exact hrows f h
  unfold parseTSV
  rw [hsplit]
  simp

theorem parseRow_isSome_iff (line : String) :
    (parseRow line).isSome = true ↔ 12 ≤ (jsSplit '\t' line).length := by
  unfold parseRow
  by_cases h : (jsSplit '\t' line).length < 12 <;> simp [h] <;> omega

theorem mapM_option_isSome {α β : Type} (f : α → Option β) (l : List α) :
    (l.mapM f).isSome = true ↔ ∀ x ∈ l, (f x).isSome = true := by
  induction l with
  | nil => simp [List.mapM, List.mapM.loop]
  | cons a l ih =>
    rw [List.mapM_cons]
    cases hfa : f a <;> cases hml : l.mapM f <;> simp_all

theorem parseTSV_isSome_iff (data : String) :
    (parseTSV data).isSome = true ↔
      ∀ line ∈ (jsSplit '\n' data).drop 1,
        jsTrim line ≠ "" → 12 ≤ (jsSplit '\t' line).length := by
  unfold parseTSV
  rw [mapM_option_isSome]
  constructor
  · intro h line hmem htrim
    exact (parseRow_isSome_iff line).mp
      (h line (List.mem_filter.mpr ⟨hmem, by simpa using htrim⟩))
  · intro h x hx
    obtain ⟨hmem, htrim⟩ := List.mem_filter.mp hx
    exact (parseRow_isSome_iff x).mpr (h x hmem (by simpa using htrim))

/-! ### Decimal rendering: `Nat.repr` is injective -/

/-- The decimal digit characters of `n`, most significant first (the
fuel-free counterpart of core's `Nat.toDigitsCore`). -/
def natDigits (n : Nat) : List Char :=
  if h : n < 10 then [Nat.digitChar n]
  else
    have : n / 10 < n := Nat.div_lt_self (by omega) (by omega)
    natDigits (n / 10) ++ [Nat.digitChar (n % 10)]

theorem toDigitsCore_eq_natDigits :
    ∀ (fuel n : Nat) (ds : List Char), n < fuel →
      Nat.toDigitsCore 10 fuel n ds = natDigits n ++ ds := by
  intro fuel
  induction fuel with
  | zero => intro n ds h; omega
  | succ f ih =>
    intro n ds h
    simp only [Nat.toDigitsCore]
    by_cases h10 : n / 10 = 0
    · have hn : n < 10 := by omega
      rw [natDigits]
      simp [h10, hn, Nat.mod_eq_of_lt hn]
    · have hn : ¬ n < 10 := by omega
      have hlt : n / 10 < f := by omega
      rw [natDigits]
      simp only [dif_neg hn]
      simp [h10, ih (n / 10) (Nat.digitChar (n % 10) :: ds) hlt, List.append_assoc]

/-- Numeric value of a decimal digit character. -/
def charDigitVal (c : Char) : Nat := c.toNat - 48

/-- Value of a digit-character list, most significant first. -/
def decValChars (l : List Char) : Nat :=
  l.foldl (fun a c => a * 10 + charDigitVal c) 0

theorem charDigitVal_digitChar {d : Nat} (h : d < 10) :
    charDigitVal (Nat.digitChar d) = d := by
  have hall : ∀ x : Fin 10, charDigitVal (Nat.digitChar x.val) = x.val := by decide
  exact hall ⟨d, h⟩

theorem decValChars_natDigits (n : Nat) : decValChars (natDigits n) = n := by
  induction n using Nat.strong_induction_on with
  | _ n ih =>
    rw [natDigits]
    by_cases h : n < 10
    · simp [h, decValChars, charDigitVal_digitChar h]
    · have hdiv : n / 10 < n := Nat.div_lt_self (by omega) (by omega)
      have ihd := ih (n / 10) hdiv
      simp only [dif_neg h]
      unfold decValChars at ihd ⊢
      rw [List.foldl_append, ihd, List.foldl_cons, List.foldl_nil,
        charDigitVal_digitChar (Nat.mod_lt _ (by omega))]
      omega

theorem toDigits_eq_natDigits (n : Nat) : Nat.toDigits 10 n = natDigits n := by
  unfold Nat.toDigits
  rw [toDigitsCore_eq_natDigits (n + 1) n [] (Nat.lt_succ_self n), List.append_nil]

theorem nat_repr_injective {m n : Nat} (h : Nat.repr m = Nat.repr n) : m = n := by
  unfold Nat.repr at h
  rw [List.asString_inj, toDigits_eq_natDigits, toDigits_eq_natDigits] at h
  have h2 := congrArg decValChars h
  rwa [decValChars_natDigits, decValChars_natDigits] at h2

/-! ### Lemmas about staged file naming -/

theorem imagePathOf_inj {t s : Nat} (h : imagePathOf t = imagePathOf s) : t = s := by
  unfold imagePathOf pathJoin at h
  have hd := congrArg String.data h
  simp only [String.data_append, List.append_assoc] at hd
  have h1 := List.append_cancel_left hd
  have h2 := List.append_cancel_left h1
  have h3 := List.append_cancel_left h2
  have h4 := List.append_cancel_right h3
  exact nat_repr_injective (String.ext h4)

theorem outputBaseOf_inj {t s : Nat} (h : outputBaseOf t = outputBaseOf s) : t = s := by
  unfold outputBaseOf pathJoin at h
  have hd := congrArg String.data h
  simp only [String.data_append, List.append_assoc] at hd
  have h1 := List.append_cancel_left hd
  have h2 := List.append_cancel_left h1
  have h3 := List.append_cancel_left h2
  exact nat_repr_injective (String.ext h3)

/-! ### Lemmas about the hex rendering and the magic-prefix check -/

theorem base64CharVal_lt {c : Char} {v : Nat} (h : base64CharVal c = some v) :
    v < 64 := by
  unfold base64CharVal at h
  split_ifs at h <;> simp_all <;> omega

theorem sextetsToBytes_lt :
    ∀ (l : List Nat), (∀ x ∈ l, x < 64) → ∀ b ∈ sextetsToBytes l, b < 256
  | a :: b :: c :: d :: rest, h => by
    intro x hx
    have ha : a < 64 := h a (by simp)
    have hb : b < 64 := h b (by simp)
    have hc : c < 64 := h c (by simp)
    have hd : d < 64 := h d (by simp)
    have hrest : ∀ y ∈ rest, y < 64 := fun y hy => h y (by simp [hy])
    rw [sextetsToBytes] at hx
    rcases List.mem_cons.mp hx with rfl | hx
    · omega
    rcases List.mem_cons.mp hx with rfl | hx
    · omega
    rcases List.mem_cons.mp hx with rfl | hx
    · omega
    exact sextetsToBytes_lt rest hrest x hx
  | [a, b], h => by
    intro x hx
    have ha : a < 64 := h a (by simp)
    have hb : b < 64 := h b (by simp)
    rw [sextetsToBytes] at hx
    rcases List.mem_cons.mp hx with rfl | hx
    · omega
    · simp at hx
  | [a, b, c], h => by
    intro x hx
    have ha : a < 64 := h a (by simp)
    have hb : b < 64 := h b (by simp)
    have hc : c < 64 := h c (by simp)
    rw [sextetsToBytes] at hx
    rcases List.mem_cons.mp hx with rfl | hx
    · omega
    rcases List.mem_cons.mp hx with rfl | hx
    · omega
    · simp at hx
  | [], _ => by intro x hx; simp [sextetsToBytes] at hx
  | [a], _ => by intro x hx; simp [sextetsToBytes] at hx

theorem nodeBase64Decode_lt (s : String) : ∀ b ∈ nodeBase64Decode s, b < 256 := by
  unfold nodeBase64Decode
  refine sextetsToBytes_lt _ ?_
  intro x hx
  obtain ⟨c, _, hc⟩ := List.mem_filterMap.mp hx
  exact base64CharVal_lt hc

theorem digitChar_inj_lt {x y : Nat} (hx : x < 16) (hy : y < 16)
    (h : Nat.digitChar x = Nat.digitChar y) : x = y := by
  have hall : ∀ a b : Fin 16, Nat.digitChar a.val = Nat.digitChar b.val → a = b := by decide
  exact congrArg Fin.val (hall ⟨x, hx⟩ ⟨y, hy⟩ h)

theorem hexByte_inj {x y : Nat} (hx : x < 256) (hy : y < 256)
    (h : hexByte x = hexByte y) : x = y := by
  unfold hexByte at h
  have h1 : Nat.digitChar (x / 16 % 16) = Nat.digitChar (y / 16 % 16) :=
    (List.cons.injEq _ _ _ _ ▸ h).1
  have h2 : Nat.digitChar (x % 16) = Nat.digitChar (y % 16) := by
    have := (List.cons.injEq _ _ _ _ ▸ h).2
    exact (List.cons.injEq _ _ _ _ ▸ this).1
  have e1 := digitChar_inj_lt (by omega) (by omega) h1
  have e2 := digitChar_inj_lt (by omega) (by omega) h2
  omega

theorem jsToLowerChar_digitChar {d : Nat} (h : d < 16) :
    jsToLowerChar (Nat.digitChar d) = Nat.digitChar d := by
  have hall : ∀ x : Fin 16, jsToLowerChar (Nat.digitChar x.val) = Nat.digitChar x.val := by
    decide
  exact hall ⟨d, h⟩

theorem map_toLower_hexByte (b : Nat) :
    (hexByte b).map jsToLowerChar = hexByte b := by
  unfold hexByte
  simp [jsToLowerChar_digitChar (Nat.mod_lt _ (by omega)),
    jsToLowerChar_digitChar (d := b / 16 % 16) (Nat.mod_lt _ (by omega))]

theorem append_chunk2 {p1 p2 x1 rest : List Char}
    (hp1 : p1.length = 2) (hx1 : x1.length = 2) :
    (p1 ++ p2) <+: (x1 ++ rest) ↔ p1 = x1 ∧ p2 <+: rest := by
  constructor
  · rintro ⟨t, ht⟩
    simp only [List.append_assoc] at ht
    obtain ⟨e1, e2⟩ := List.append_inj ht (by omega)
    exact ⟨e1, t, e2⟩
  · rintro ⟨rfl, t, ht⟩
    exact ⟨t, by simp only [List.append_assoc, ht]⟩

theorem prefix_chunk2 {q x r : List Char} (hq : q.length = 2) (hx : x.length = 2) :
    q <+: (x ++ r) ↔ q = x := by
  constructor
  · rintro ⟨t, ht⟩
    exact (List.append_inj ht (by omega)).1
  · rintro rfl
    exact List.prefix_append _ _

theorem magic_check_iff {v1 v2 : Nat} (h1 : v1 < 256) (h2 : v2 < 256)
    (sig : String) (hsig : sig.data = hexByte v1 ++ hexByte v2)
    (bytes : List Nat) (hb : ∀ b ∈ bytes, b < 256) :
    jsStartsWith (jsToLower (bufferToHex4 bytes)) sig = true ↔
      [v1, v2] <+: bytes := by
  unfold jsStartsWith
  rw [hsig, List.isPrefixOf_iff_prefix]
  match bytes with
  | [] =>
    simp only [jsToLower, bufferToHex4]
    constructor
    · intro h
      have := h.sublist.length_le
      simp [hexByte] at this
    · intro h
      have := h.sublist.length_le
      simp at this
  | [b] =>
    have hbyte : b < 256 := hb b (by simp)
    have hdata : (jsToLower (bufferToHex4 [b])).data = hexByte b := by
      simp [jsToLower, bufferToHex4, map_toLower_hexByte]
    rw [hdata]
    constructor
    · intro h
      have := h.sublist.length_le
      simp [hexByte] at this
    · intro h
      have := h.sublist.length_le
      simp [hexByte] at this
  | b1 :: b2 :: rest =>
    have hb1 : b1 < 256 := hb b1 (by simp)
    have hb2 : b2 < 256 := hb b2 (by simp)
    have hdata : (jsToLower (bufferToHex4 (b1 :: b2 :: rest))).data =
        hexByte b1 ++ (hexByte b2 ++
          (((rest.take 2).map hexByte).flatten.map jsToLowerChar)) := by
      simp [jsToLower, bufferToHex4, List.map_append, map_toLower_hexByte,
        List.append_assoc]
    rw [hdata, append_chunk2 (by simp [hexByte]) (by simp [hexByte]),
      prefix_chunk2 (by simp [hexByte]) (by simp [hexByte])]
    constructor
    · rintro ⟨e1, e2⟩
      have q1 := hexByte_inj h1 hb1 e1
      have q2 := hexByte_inj h2 hb2 e2
      simp [List.cons_prefix_cons, q1, q2]
    · intro h
      simp only [List.cons_prefix_cons] at h
      obtain ⟨rfl, rfl, _⟩ := h
      exact ⟨rfl, rfl⟩

theorem isValidBase64Image_iff_magic (s : String) :
    isValidBase64Image s = true ↔
      ([255, 216] <+: nodeBase64Decode s ∨ [137, 80] <+: nodeBase64Decode s ∨
        [71, 73] <+: nodeBase64Decode s) := by
  have e1 : ("ffd8" : String).data = hexByte 255 ++ hexByte 216 := by decide
  have e2 : ("8950" : String).data = hexByte 137 ++ hexByte 80 := by decide
  have e3 : ("4749" : String).data = hexByte 71 ++ hexByte 73 := by decide
  have hb := nodeBase64Decode_lt s
  unfold isValidBase64Image
  simp only [List.any_cons, List.any_nil, Bool.or_eq_true, Bool.or_false]
  rw [magic_check_iff (by omega) (by omega) _ e1 _ hb,
    magic_check_iff (by omega) (by omega) _ e2 _ hb,
    magic_check_iff (by omega) (by omega) _ e3 _ hb]

theorem mapM_option_length {α β : Type} (f : α → Option β) :
    ∀ (l : List α) (ys : List β), l.mapM f = some ys → ys.length = l.length := by
  intro l
  induction l with
  | nil => intro ys h; simp [List.mapM, List.mapM.loop] at h; simp [← h]
  | cons a l ih =>
    intro ys h
    rw [List.mapM_cons] at h
    cases hfa : f a with
    | none => simp_all
    | some b =>
      cases hml : l.mapM f with
      | none => simp_all
      | some bs =>
        have hlen := ih bs hml
        rw [hfa, hml] at h
        simp at h
        simp [← h, hlen]

/-! ### Claim theorems -/

/-- C9: for every image path and output basename, `cleanupFiles` removes the
image file and both derived output files (`<outputBase>.txt`, `<outputBase>.tsv`)
when present, leaves every other file untouched, and is idempotent: a second
run on the same paths changes nothing.  (It never throws: the `try`/`catch`
swallows deletion errors, so the embedded function is total.) -/
theorem cleanupFiles_complete_and_idempotent :
    ∀ (imagePath outputBase : String) (fs : FileSys),
      (∀ q, q ∈ cleanupFiles imagePath outputBase fs ↔
          q ∈ fs ∧ q ≠ imagePath ∧ q ≠ outputBase ++ ".txt" ∧ q ≠ outputBase ++ ".tsv") ∧
      cleanupFiles imagePath outputBase (cleanupFiles imagePath outputBase fs) =
        cleanupFiles imagePath outputBase fs :=
  fun imagePath outputBase fs =>
    ⟨fun _ => mem_cleanupFiles, cleanupFiles_idem imagePath outputBase fs⟩

/-- C2 (counterexample): at the concrete clock readings `t1 = 1`, `t2 = 2`
(the second `Date.now()` call ticked one millisecond after the first), the
staged pair does not carry a single shared token: there is no reading `tok`
with image path `image_<tok>.png` and output basename `image_<tok>`. -/
theorem stagePair_distinct_tokens_at_1_2 :
    ¬ ∃ tok : Nat, stagePair 1 2 = stagePair tok tok := by
  rintro ⟨tok, h⟩
  have e1 : (1 : Nat) = tok := imagePathOf_inj (congrArg Prod.fst h)
  have e2 : (2 : Nat) = tok := outputBaseOf_inj (congrArg Prod.snd h)
  omega

/-- C2 (amended): the staged pair consists of `uploads/image_<t1>.png` and
`output/image_<t2>` where `t1`, `t2` are the two successive `Date.now()`
readings of the request; the two names carry one shared token exactly when
the two readings coincide, and two staged pairs are equal exactly when their
reading pairs are equal (so pairs are unique across requests only as far as
the clock readings are). -/
theorem stagePair_characterization :
    ∀ t1 t2 : Nat,
      stagePair t1 t2 =
        (pathJoin "uploads" ("image_" ++ Nat.repr t1 ++ ".png"),
          pathJoin "output" ("image_" ++ Nat.repr t2)) ∧
      ((∃ tok : Nat, stagePair t1 t2 = stagePair tok tok) ↔ t1 = t2) ∧
      (∀ s1 s2 : Nat, stagePair t1 t2 = stagePair s1 s2 ↔ t1 = s1 ∧ t2 = s2) := by
  intro t1 t2
  refine ⟨rfl, ⟨?_, ?_⟩, ?_⟩
  · rintro ⟨tok, h⟩
    have e1 : t1 = tok := imagePathOf_inj (congrArg Prod.fst h)
    have e2 : t2 = tok := outputBaseOf_inj (congrArg Prod.snd h)
    omega
  · rintro rfl
    exact ⟨t1, rfl⟩
  · intro s1 s2
    constructor
    · intro h
      exact ⟨imagePathOf_inj (congrArg Prod.fst h),
        outputBaseOf_inj (congrArg Prod.snd h)⟩
    · rintro ⟨rfl, rfl⟩
      rfl

/-- C4: the validator accepts exactly the strings whose decoded bytes start
with one of the magic prefixes `ff d8` (JPEG), `89 50` (PNG), `47 49` (GIF) —
the lowercase-hex rendering of the first four bytes starts with `ffd8`,
`8950` or `4749` iff the byte list has the corresponding two-byte prefix.
Node's base64 decoder is total (it never throws), so the `catch` branch
returning `false` on a decode failure is never exercised and the validator is
a total Boolean function; a buffer of zero bytes (`"AAAAAA=="`) is rejected
and a JPEG prefix (`"/9g="`) is accepted. -/
theorem isValidBase64Image_magic_characterization :
    (∀ s : String,
        isValidBase64Image s = true ↔
          ([255, 216] <+: nodeBase64Decode s ∨ [137, 80] <+: nodeBase64Decode s ∨
            [71, 73] <+: nodeBase64Decode s)) ∧
    isValidBase64Image "AAAAAA==" = false ∧
    isValidBase64Image "/9g=" = true :=
  ⟨isValidBase64Image_iff_magic, by decide, by decide⟩

/-- C3: the tabular parser discards the first line whatever it is, skips
whitespace-only lines, splits each remaining line on tab into twelve
positional fields and emits
`{ text: trim(text), confidence: parseFloat(conf), x_min: left, y_min: top,
x_max: left+width, y_max: top+height }`; in particular the concrete row
of the claim parses to
`{ text:"hello", confidence:95.5, x_min:10, y_min:20, x_max:40, y_max:28 }`. -/
theorem parseTSV_positional_semantics :
    (∀ (hdr : String) (rows : List String),
        '\n' ∉ hdr.data → (∀ r ∈ rows, '\n' ∉ r.data) →
        parseTSV (String.intercalate "\n" (hdr :: rows)) =
          (rows.filter (fun line => jsTrim line ≠ "")).mapM parseRow) ∧
    (∀ w ∈ ([" ", "\t \t", "  \t"] : List String), jsTrim w = "") ∧
    (∀ level page_num block_num par_num line_num word_num
        left top width height conf text : String,
        (∀ f ∈ [level, page_num, block_num, par_num, line_num, word_num,
            left, top, width, height, conf, text], '\t' ∉ f.data) →
        parseRow (String.intercalate "\t"
            [level, page_num, block_num, par_num, line_num, word_num,
              left, top, width, height, conf, text]) =
          some { text := jsTrim text, confidence := jsParseFloat conf,
                 x_min := jsParseInt left, y_min := jsParseInt top,
                 x_max := jsAdd (jsParseInt left) (jsParseInt width),
                 y_max := jsAdd (jsParseInt top) (jsParseInt height) }) ∧
    parseRow "5\t1\t1\t1\t1\t1\t10\t20\t30\t8\t95.5\thello" =
      some { text := "hello", confidence := JSNum.num (95.5 : ℚ),
             x_min := JSNum.num 10, y_min := JSNum.num 20,
             x_max := JSNum.num 40, y_max := JSNum.num 28 } := by
  refine ⟨parseTSV_rows, by decide, ?_, ?_⟩
  · intro level page_num block_num par_num line_num word_num
      left top width height conf text hf
    rw [parseRow_fields _ (by simp) hf]
    simp
  · simp +decide [parseRow, jsSplit, splitOnChar, splitOnCharAux, jsTrim,
      jsParseFloat, jsParseInt, takeSign, takeDigits, digitVal, digitsToNat, jsAdd]
    norm_num

/-- C3 (witness): the general parts of the claim applied at a concrete header,
a concrete whitespace-only line and the concrete row of the claim. -/
theorem parseTSV_positional_semantics_witness :
    parseTSV (String.intercalate "\n"
        ["level\tpage_num", "5\t1\t1\t1\t1\t1\t10\t20\t30\t8\t95.5\thello", "  \t"]) =
      (["5\t1\t1\t1\t1\t1\t10\t20\t30\t8\t95.5\thello", "  \t"].filter
          (fun line => jsTrim line ≠ "")).mapM parseRow ∧
    parseRow (String.intercalate "\t"
        ["5", "1", "1", "1", "1", "1", "10", "20", "30", "8", "95.5", "hello"]) =
      some { text := jsTrim "hello", confidence := jsParseFloat "95.5",
             x_min := jsParseInt "10", y_min := jsParseInt "20",
             x_max := jsAdd (jsParseInt "10") (jsParseInt "30"),
             y_max := jsAdd (jsParseInt "20") (jsParseInt "8") } :=
  ⟨parseTSV_positional_semantics.1 "level\tpage_num"
      ["5\t1\t1\t1\t1\t1\t10\t20\t30\t8\t95.5\thello", "  \t"] (by decide) (by decide),
    parseTSV_positional_semantics.2.2.1 "5" "1" "1" "1" "1" "1" "10" "20" "30" "8"
      "95.5" "hello" (by decide)⟩

/-- C7: a 12-field row with a malformed or missing numeric field still parses
to a record (`parseRow` succeeds); `conf` is parsed with `parseFloat` and
`left`/`top`/`width`/`height` with `parseInt`, and a not-a-number result is
passed through as-is into the corresponding record field (`confidence`,
`x_min`/`x_max`, `y_min`/`y_max`) — NaN contaminates the sums `left+width`
and `top+height` — rather than failing the row. -/
theorem parseRow_nan_passthrough :
    ∀ level page_num block_num par_num line_num word_num
        left top width height conf text : String,
      (∀ f ∈ [level, page_num, block_num, par_num, line_num, word_num,
          left, top, width, height, conf, text], '\t' ∉ f.data) →
      ∃ bb, parseRow (String.intercalate "\t"
            [level, page_num, block_num, par_num, line_num, word_num,
              left, top, width, height, conf, text]) = some bb ∧
        bb.confidence = jsParseFloat conf ∧
        bb.x_min = jsParseInt left ∧ bb.y_min = jsParseInt top ∧
        (jsParseFloat conf = JSNum.nan → bb.confidence = JSNum.nan) ∧
        (jsParseInt left = JSNum.nan → bb.x_min = JSNum.nan ∧ bb.x_max = JSNum.nan) ∧
        (jsParseInt top = JSNum.nan → bb.y_min = JSNum.nan ∧ bb.y_max = JSNum.nan) ∧
        (jsParseInt width = JSNum.nan → bb.x_max = JSNum.nan) ∧
        (jsParseInt height = JSNum.nan → bb.y_max = JSNum.nan) := by
  intro level page_num block_num par_num line_num word_num
    left top width height conf text hf
  refine ⟨_, parseRow_fields _ (by simp) hf, ?_⟩
  simp only [List.getD]
  refine ⟨by simp, by simp, by simp, ?_, ?_, ?_, ?_, ?_⟩
  · intro h; simpa using h
  · intro h
    simp at h ⊢
    simp [h, jsAdd]
  · intro h
    simp at h ⊢
    simp [h, jsAdd]
  · intro h
    simp at h ⊢
    rw [h]
    cases jsParseInt left <;> simp [jsAdd]
  · intro h
    simp at h ⊢
    rw [h]
    cases jsParseInt top <;> simp [jsAdd]

/-- C7 (witness): a row whose `left` field is non-numeric and whose `conf`
field is empty parses to a record with NaN `confidence`, `x_min` and `x_max`;
`parseFloat` and `parseInt` on such fields indeed give NaN. -/
theorem parseRow_nan_passthrough_witness :
    jsParseFloat "" = JSNum.nan ∧ jsParseInt "abc" = JSNum.nan ∧
    (∃ bb, parseRow (String.intercalate "\t"
          ["5", "1", "1", "1", "1", "1", "abc", "20", "30", "8", "", "hello"]) = some bb ∧
        bb.confidence = jsParseFloat "" ∧
        bb.x_min = jsParseInt "abc" ∧ bb.y_min = jsParseInt "20" ∧
        (jsParseFloat "" = JSNum.nan → bb.confidence = JSNum.nan) ∧
        (jsParseInt "abc" = JSNum.nan → bb.x_min = JSNum.nan ∧ bb.x_max = JSNum.nan) ∧
        (jsParseInt "20" = JSNum.nan → bb.y_min = JSNum.nan ∧ bb.y_max = JSNum.nan) ∧
        (jsParseInt "30" = JSNum.nan → bb.x_max = JSNum.nan) ∧
        (jsParseInt "8" = JSNum.nan → bb.y_max = JSNum.nan)) :=
  ⟨by decide, by decide,
    parseRow_nan_passthrough "5" "1" "1" "1" "1" "1" "abc" "20" "30" "8" "" "hello"
      (by decide)⟩

/-- C5: a TSV whose non-blank data line has fewer than 12 tab-separated
fields makes the parsing step throw (`parseTSV` is `none`: `text` is
`undefined` and `text.trim()` raises), so the handler sends no response at
all — neither a bounding-box payload nor the 500 error path — and, in
general, `parseTSV` succeeds exactly when every non-blank data line has at
least 12 tab-separated fields. -/
theorem parseTSV_throws_on_short_row :
    parseTSV "level\tpage\n5\t1\t1" = none ∧
    (getBboxesHandler (some "/9g=") (some "word") 0 0
        ⟨true, true, "", true, "level\tpage\n5\t1\t1"⟩ []).1 = none ∧
    (getBboxesHandler (some "/9g=") (some "word") 0 0
        ⟨true, true, "", true, "level\tpage\n5\t1\t1"⟩ []).2.1.cleanupRan = false ∧
    (∀ data : String,
        (parseTSV data).isSome = true ↔
          ∀ line ∈ (jsSplit '\n' data).drop 1,
            jsTrim line ≠ "" → 12 ≤ (jsSplit '\t' line).length) :=
  ⟨by decide, by decide, by decide, parseTSV_isSome_iff⟩

/-- C6: whenever the `bbox_type` field of a `/api/get-bboxes` request is
absent or not one of `word`, `line`, `paragraph`, `block`, `page`, the
handler responds 400 with no staging write, no recognizer invocation, no
cleanup, and an unchanged filesystem — whatever the image field, the clock
readings and the external-effect outcomes. -/
theorem getBboxes_invalid_type_short_circuits :
    ∀ (img bbox_type : Option String) (t1 t2 : Nat) (o : RecognizerOracle)
      (fs : FileSys),
      (bbox_type = none ∨ ∃ b, bbox_type = some b ∧ b ∉ validBboxTypes) →
      ∃ msg, getBboxesHandler img bbox_type t1 t2 o fs =
        (some (errorResponse 400 msg), noTrace, fs) := by
  intro img bbox_type t1 t2 o fs h
  have hb : validBboxField bbox_type = false := by
    rcases h with rfl | ⟨b, rfl, hb⟩
    · rfl
    · simp [validBboxField, hb]
  unfold getBboxesHandler
  by_cases hv : validImageField img = true
  · exact ⟨"Invalid bbox_type.", by simp [hv, hb]⟩
  · have hv2 : validImageField img = false := by simpa using hv
    exact ⟨"Invalid base64_image.", by simp [hv2]⟩

/-- C6 (witness): a request with a valid JPEG image and `bbox_type`
`"sentence"` (not an accepted granularity) gets a 400 response, an empty
effect trace and an untouched filesystem. -/
theorem getBboxes_invalid_type_short_circuits_witness :
    ∃ msg, getBboxesHandler (some "/9g=") (some "sentence") 0 0
        ⟨true, true, "", true, ""⟩ [] = (some (errorResponse 400 msg), noTrace, []) :=
  getBboxes_invalid_type_short_circuits (some "/9g=") (some "sentence") 0 0
    ⟨true, true, "", true, ""⟩ [] (Or.inr ⟨"sentence", rfl, by decide⟩)

/-- C10: a `/api/get-text` request with a valid image whose staging write,
recognizer run and output-file read all succeed gets a 200 response with
`success: true` and `result.text` equal to the content of the
`<outputBase>.txt` file with leading and trailing whitespace trimmed. -/
theorem getText_success_returns_trimmed_text :
    ∀ (img : Option String) (t1 t2 : Nat) (o : RecognizerOracle) (fs : FileSys),
      validImageField img = true →
      o.writeOk = true → o.execOk = true → o.readOk = true →
      ∃ fsOut, getTextHandler img t1 t2 o fs =
        (some ⟨200, true, none, some (jsTrim o.readData), none, none⟩,
          ⟨true, true, true⟩, fsOut) := by
  intro img t1 t2 o fs hv hw he hr
  unfold getTextHandler
  refine ⟨cleanupFiles (stagePair t1 t2).1 (stagePair t1 t2).2
      (fsCreate (fsCreate fs (stagePair t1 t2).1) ((stagePair t1 t2).2 ++ ".txt")), ?_⟩
  simp [hv, hw, he, hr]

/-- C10 (witness): a concrete successful request whose output file content is
`" hello world \n"` answers 200 with the trimmed string `"hello world"`. -/
theorem getText_success_returns_trimmed_text_witness :
    (∃ fsOut, getTextHandler (some "/9g=") 0 0 ⟨true, true, "", true, " hello world \n"⟩ [] =
        (some ⟨200, true, none, some (jsTrim " hello world \n"), none, none⟩,
          ⟨true, true, true⟩, fsOut)) ∧
    jsTrim " hello world \n" = "hello world" :=
  ⟨getText_success_returns_trimmed_text (some "/9g=") 0 0
      ⟨true, true, "", true, " hello world \n"⟩ [] (by decide) rfl rfl rfl,
    by decide⟩

/-- None of the three staged paths of the request (image, `.txt`, `.tsv`)
exists in the given filesystem. -/
def stagedPathsClear (t1 t2 : Nat) (fs : FileSys) : Prop :=
  (stagePair t1 t2).1 ∉ fs ∧ (stagePair t1 t2).2 ++ ".txt" ∉ fs ∧
    (stagePair t1 t2).2 ++ ".tsv" ∉ fs

theorem stagedPathsClear_cleanup (t1 t2 : Nat) (fs : FileSys) :
    stagedPathsClear t1 t2 (cleanupFiles (stagePair t1 t2).1 (stagePair t1 t2).2 fs) :=
  ⟨fun h => (mem_cleanupFiles.mp h).2.1 rfl,
    fun h => (mem_cleanupFiles.mp h).2.2.1 rfl,
    fun h => (mem_cleanupFiles.mp h).2.2.2 rfl⟩

theorem getText_writeOk_cleanup (img : Option String) (t1 t2 : Nat)
    (o : RecognizerOracle) (fs : FileSys)
    (hv : validImageField img = true) (hw : o.writeOk = true) :
    (getTextHandler img t1 t2 o fs).2.1.cleanupRan = true ∧
    stagedPathsClear t1 t2 (getTextHandler img t1 t2 o fs).2.2 := by
  unfold getTextHandler
  cases he : o.execOk <;> cases hr : o.readOk <;>
    simp [hv, hw, he, hr] <;> exact stagedPathsClear_cleanup t1 t2 _

theorem getBboxes_writeOk_cleanup (img bt : Option String) (t1 t2 : Nat)
    (o : RecognizerOracle) (fs : FileSys)
    (hv : validImageField img = true) (hb : validBboxField bt = true)
    (hw : o.writeOk = true) :
    ∀ r, (getBboxesHandler img bt t1 t2 o fs).1 = some r →
      (getBboxesHandler img bt t1 t2 o fs).2.1.cleanupRan = true ∧
      stagedPathsClear t1 t2 (getBboxesHandler img bt t1 t2 o fs).2.2 := by
  intro r hresp
  unfold getBboxesHandler at hresp ⊢
  cases he : o.execOk <;> cases hrd : o.readOk <;>
    simp [hv, hb, hw, he, hrd] at hresp ⊢
  · exact stagedPathsClear_cleanup t1 t2 _
  · exact stagedPathsClear_cleanup t1 t2 _
  · exact stagedPathsClear_cleanup t1 t2 _
  · cases hp : parseTSV o.readData with
    | none => simp [hp] at hresp
    | some bs =>
      simp [hp]
      exact stagedPathsClear_cleanup t1 t2 _

/-- C1 (counterexample): a valid request whose staged-image write fails gets
a 500 response from both endpoints with `cleanupFiles` never invoked — the
write-failure branch returns without cleanup, refuting the claim that every
post-staging failure path triggers cleanup before responding. -/
theorem write_failure_responds_without_cleanup :
    (getTextHandler (some "/9g=") 0 0 ⟨false, true, "", true, ""⟩ []).1 =
        some (errorResponse 500 "Error saving image.") ∧
    (getTextHandler (some "/9g=") 0 0 ⟨false, true, "", true, ""⟩ []).2.1.cleanupRan =
        false ∧
    (getBboxesHandler (some "/9g=") (some "word") 0 0
        ⟨false, true, "", true, ""⟩ []).1 =
        some (errorResponse 500 "Error saving image.") ∧
    (getBboxesHandler (some "/9g=") (some "word") 0 0
        ⟨false, true, "", true, ""⟩ []).2.1.cleanupRan = false := by
  refine ⟨?_, ?_, ?_, ?_⟩ <;> decide

/-- C1 (amended): for every valid request, the success, external-tool-failure
and output-read-failure paths of both handlers run `cleanupFiles` before the
response goes out and leave none of the request's staged files on disk; the
input-file write-failure path, however, responds 500 *without* running
cleanup, leaving the filesystem exactly as it was (no staged file had been
recorded as written). -/
theorem handlers_cleanup_on_post_write_paths :
    ∀ (img bt : Option String) (t1 t2 : Nat) (o : RecognizerOracle) (fs : FileSys),
      validImageField img = true → validBboxField bt = true →
      (o.writeOk = false →
        getTextHandler img t1 t2 o fs =
          (some (errorResponse 500 "Error saving image."), ⟨true, false, false⟩, fs) ∧
        getBboxesHandler img bt t1 t2 o fs =
          (some (errorResponse 500 "Error saving image."), ⟨true, false, false⟩, fs)) ∧
      (o.writeOk = true →
        ((getTextHandler img t1 t2 o fs).2.1.cleanupRan = true ∧
          stagedPathsClear t1 t2 (getTextHandler img t1 t2 o fs).2.2) ∧
        (∀ r, (getBboxesHandler img bt t1 t2 o fs).1 = some r →
          (getBboxesHandler img bt t1 t2 o fs).2.1.cleanupRan = true ∧
          stagedPathsClear t1 t2 (getBboxesHandler img bt t1 t2 o fs).2.2)) := by
  intro img bt t1 t2 o fs hv hb
  constructor
  · intro hw
    constructor
    · unfold getTextHandler
      simp [hv, hw]
    · unfold getBboxesHandler
      simp [hv, hb, hw]
  · intro hw
    exact ⟨getText_writeOk_cleanup img t1 t2 o fs hv hw,
      getBboxes_writeOk_cleanup img bt t1 t2 o fs hv hb hw⟩

/-- C1 (witness): the amended theorem at a concrete valid request — on a
fully successful run, cleanup ran and no staged path survives; on a
write-failure run, the 500 response goes out with an empty-cleanup trace. -/
theorem handlers_cleanup_on_post_write_paths_witness :
    ((getTextHandler (some "/9g=") 0 0 ⟨true, true, "", true, "hi"⟩ []).2.1.cleanupRan = true ∧
      stagedPathsClear 0 0 (getTextHandler (some "/9g=") 0 0 ⟨true, true, "", true, "hi"⟩ []).2.2) ∧
    getTextHandler (some "/9g=") 0 0 ⟨false, true, "", true, "hi"⟩ [] =
      (some (errorResponse 500 "Error saving image."), ⟨true, false, false⟩, []) :=
  ⟨((handlers_cleanup_on_post_write_paths (some "/9g=") (some "word") 0 0
        ⟨true, true, "", true, "hi"⟩ [] (by decide) (by decide)).2 rfl).1,
    ((handlers_cleanup_on_post_write_paths (some "/9g=") (some "word") 0 0
        ⟨false, true, "", true, "hi"⟩ [] (by decide) (by decide)).1 rfl).1⟩

/-- C8: for a valid `/api/get-bboxes` request whose effects all succeed and
whose TSV parses, the 200 response returns *every* parsed row — the row count
equals the number of non-blank data lines, nothing is filtered by the `level`
field or the requested granularity, and the same row list is returned for any
other valid `bbox_type` — while `result.bbox_type` merely echoes the request
field. -/
theorem getBboxes_returns_all_rows_echoes_type :
    ∀ (img : Option String) (bt : String) (t1 t2 : Nat) (o : RecognizerOracle)
      (fs : FileSys) (bs : List BBox),
      validImageField img = true → validBboxField (some bt) = true →
      o.writeOk = true → o.execOk = true → o.readOk = true →
      parseTSV o.readData = some bs →
      (∃ r, (getBboxesHandler img (some bt) t1 t2 o fs).1 = some r ∧
        r.status = 200 ∧ r.success = true ∧ r.bboxes = some bs ∧
        r.bboxType = some bt) ∧
      bs.length = (((jsSplit '\n' o.readData).drop 1).filter
        (fun line => jsTrim line ≠ "")).length ∧
      (∀ bt2 : String, validBboxField (some bt2) = true →
        ∃ r2, (getBboxesHandler img (some bt2) t1 t2 o fs).1 = some r2 ∧
          r2.bboxes = some bs ∧ r2.bboxType = some bt2) := by
  intro img bt t1 t2 o fs bs hv hb hw he hr hp
  have hresp : ∀ b2 : String, validBboxField (some b2) = true →
      (getBboxesHandler img (some b2) t1 t2 o fs).1 =
        some ⟨200, true, none, none, some bs, some b2⟩ := by
    intro b2 hb2
    unfold getBboxesHandler
    simp [hv, hb2, hw, he, hr, hp]
  refine ⟨⟨_, hresp bt hb, rfl, rfl, rfl, rfl⟩, ?_, ?_⟩
  · unfold parseTSV at hp
    exact mapM_option_length parseRow _ bs hp
  · intro bt2 hb2
    exact ⟨_, hresp bt2 hb2, rfl, rfl⟩

/-- C8 (witness): a `bbox_type: "paragraph"` request over tabular output whose
two rows have different levels (5, a word row, and 4, a line row) returns
both rows, unfiltered, with the bbox type echoed. -/
theorem getBboxes_returns_all_rows_echoes_type_witness :
    ∃ r, (getBboxesHandler (some "/9g=") (some "paragraph") 0 0
        ⟨true, true, "", true,
          "hdr\n5\t1\t1\t1\t1\t1\t10\t20\t30\t8\t95.5\thello\n4\t1\t1\t1\t1\t0\t1\t2\t3\t4\t-1\t"⟩ []).1 = some r ∧
      r.status = 200 ∧ r.success = true ∧
      r.bboxes = some
        [{ text := "hello", confidence := JSNum.num (95.5 : ℚ),
           x_min := JSNum.num 10, y_min := JSNum.num 20,
           x_max := JSNum.num 40, y_max := JSNum.num 28 },
         { text := "", confidence := JSNum.num (-1 : ℚ),
           x_min := JSNum.num 1, y_min := JSNum.num 2,
           x_max := JSNum.num 4, y_max := JSNum.num 6 }] ∧
      r.bboxType = some "paragraph" := by
  have hparse : parseTSV
      "hdr\n5\t1\t1\t1\t1\t1\t10\t20\t30\t8\t95.5\thello\n4\t1\t1\t1\t1\t0\t1\t2\t3\t4\t-1\t" =
      some
        [{ text := "hello", confidence := JSNum.num (95.5 : ℚ),
           x_min := JSNum.num 10, y_min := JSNum.num 20,
           x_max := JSNum.num 40, y_max := JSNum.num 28 },
         { text := "", confidence := JSNum.num (-1 : ℚ),
           x_min := JSNum.num 1, y_min := JSNum.num 2,
           x_max := JSNum.num 4, y_max := JSNum.num 6 }] := by
    simp +decide [parseTSV, parseRow, jsSplit, splitOnChar, splitOnCharAux, jsTrim,
      jsParseFloat, jsParseInt, takeSign, takeDigits, digitVal, digitsToNat, jsAdd,
      List.mapM_cons, List.mapM_nil, List.mapM.loop]
    norm_num
  exact (getBboxes_returns_all_rows_echoes_type (some "/9g=") "paragraph" 0 0
      ⟨true, true, "", true,
        "hdr\n5\t1\t1\t1\t1\t1\t10\t20\t30\t8\t95.5\thello\n4\t1\t1\t1\t1\t0\t1\t2\t3\t4\t-1\t"⟩
      [] _ (by decide) (by decide) rfl rfl rfl hparse).1
